import Mathlib

/-!
# Verification of the RAG-search retrieval core (src/index.mjs)

Shallow embedding of the retrieval subsystem: the document model
(`formatDocuments`), the similarity ranker (`cosineSimilarity`), the vector
store (`CustomVectorStore` with `addVectors` and `similaritySearch`), the
indexing pipeline (`createVectorStore`) and the query pipeline
(`searchDocuments`).

Modelling conventions:
* JavaScript numbers are idealised as exact rationals (`ℚ`).
* A similarity value (`Sim`) is `some (d, s)` denoting the real number
  `d / Real.sqrt s` (dot product over the product of the two squared
  magnitudes; `s > 0` whenever the value is produced), or `none`,
  representing IEEE `NaN` as produced by `0/0` or by arithmetic on an
  out-of-range (`undefined`) array element.
* `Array.prototype.sort` with comparator `(a, b) => b.similarity - a.similarity`
  is a stable sort in descending similarity order; it is modelled by a stable
  insertion sort (`sortRanked`) over the boolean comparison `simGe`, which
  decides `d₁ / √s₁ ≥ d₂ / √s₂` by sign analysis and squaring (certified
  against the real ordering by `simGe_iff` below).  A comparator invocation
  whose result is `NaN` is treated as a tie, matching engines that test the
  comparator result with `< 0` / `> 0`.
* `Array.prototype.slice(0, k)` is modelled by `jsSlice`, including the
  negative-`k` clamping of the ECMAScript specification.
* The asynchronous wrappers (`async`/`await`, `Promise.all`) carry no
  observable effects here; `Promise.all` preserves order, so the pipeline is
  modelled by pure functions.
-/

/-- A raw corpus record from `data.json`: `{id, title, content}`. -/
structure RawItem where
  id : Int
  title : String
  content : String
  deriving DecidableEq

/-- The metadata attached to a formatted document (`{id, title}`). -/
structure DocMetadata where
  id : Int
  title : String
  deriving DecidableEq

/-- A formatted document: `{pageContent, metadata}` as built by
`formatDocuments`. -/
structure Document where
  pageContent : String
  metadata : DocMetadata
  deriving DecidableEq

/-- A JavaScript similarity value: `some (d, s)` denotes the real number
`d / √s`; `none` denotes `NaN`. -/
abbrev Sim := Option (ℚ × ℚ)

/-- `a.reduce((sum, val, i) => sum + val * b[i], 0)` from `cosineSimilarity`.
When `a` is longer than `b`, some `b[i]` is `undefined` and the whole sum is
`NaN` (`none`); otherwise it is the dot product over the indices of `a`
(silently truncating `b`). -/
def jsDot : List ℚ → List ℚ → Option ℚ
  | [], _ => some 0
  | _ :: _, [] => none
  | a :: as, b :: bs => (jsDot as bs).map (fun s => a * b + s)

/-- `v.reduce((sum, val) => sum + val * val, 0)`: the squared magnitude of a
vector, as folded by the source. -/
def sumSq (l : List ℚ) : ℚ := l.foldl (fun s v => s + v * v) 0

/-- `cosineSimilarity(a, b)` from src/index.mjs:
`dot / (Math.sqrt(sumSq a) * Math.sqrt(sumSq b))`.  The denominator is
`√(sumSq a * sumSq b)`, so the value is represented as
`some (dot, sumSq a * sumSq b)`.  When the denominator is zero the dot product
is forced to be zero as well (a zero vector annihilates it), so the division
is `0/0 = NaN` (`none`); a `NaN` dot product also yields `NaN`. -/
def cosineSimilarity (a b : List ℚ) : Sim :=
  match jsDot a b with
  | none => none
  | some d =>
      if sumSq a * sumSq b = 0 then none else some (d, sumSq a * sumSq b)

/-- Decides `d₁ / √s₁ ≥ d₂ / √s₂` (for `s₁, s₂ > 0`) by sign analysis and
squaring; this is the order the comparator
`(a, b) => b.similarity - a.similarity` induces.  A comparison involving `NaN`
is a tie, and ties keep the earlier element first, hence `true`. -/
def simGe : Sim → Sim → Bool
  | none, _ => true
  | some _, none => true
  | some (d₁, s₁), some (d₂, s₂) =>
      if d₂ < 0 then
        (if 0 ≤ d₁ then true else decide (d₁ * d₁ * s₂ ≤ d₂ * d₂ * s₁))
      else
        (if d₁ < 0 then false else decide (d₂ * d₂ * s₁ ≤ d₁ * d₁ * s₂))

/-- Insert an element into an already ranked list, before the first element it
compares greater-or-tied with (stable insertion). -/
def insertRanked (ge : α → α → Bool) (x : α) : List α → List α
  | [] => [x]
  | y :: ys => if ge x y then x :: y :: ys else y :: insertRanked ge x ys

/-- Stable insertion sort modelling the stable `Array.prototype.sort`. -/
def sortRanked (ge : α → α → Bool) : List α → List α
  | [] => []
  | x :: xs => insertRanked ge x (sortRanked ge xs)

/-- `l.slice(0, k)` with the ECMAScript clamping rules: a negative end index
counts from the end of the array. -/
def jsSlice (k : Int) (l : List α) : List α :=
  l.take ((if k < 0 then (l.length : Int) + k else min k (l.length : Int)).toNat)

/-- The vector store: parallel arrays of vectors and documents, plus the
embedder reference attached via `setExtractor`. -/
structure CustomVectorStore where
  vectors : List (List ℚ)
  documents : List Document
  extractor : String → List ℚ

/-- `getEmbeddings(extractor, text)`: the external embedder applied to a text
(deterministic for a fixed model, per the embedder contract). -/
def getEmbeddings (extractor : String → List ℚ) (text : String) : List ℚ :=
  extractor text

/-- `addVectors(vectors, documents)`: wholesale replacement of both parallel
arrays.  The source performs no validation of any kind. -/
def CustomVectorStore.addVectors (s : CustomVectorStore)
    (vectors : List (List ℚ)) (documents : List Document) : CustomVectorStore :=
  { s with vectors := vectors, documents := documents }

/-- The `similarities` array of `similaritySearch` before sorting:
`this.vectors.map((vector, index) => ({similarity, document: this.documents[index]}))`.
An out-of-range `this.documents[index]` is `undefined` (`none`). -/
def simPairs (s : CustomVectorStore) (qv : List ℚ) : List (Sim × Option Document) :=
  s.vectors.enum.map (fun p => (cosineSimilarity qv p.2, s.documents[p.1]?))

/-- The `similarities` array after the stable descending sort. -/
def rankedPairs (s : CustomVectorStore) (qv : List ℚ) : List (Sim × Option Document) :=
  sortRanked (fun x y => simGe x.1 y.1) (simPairs s qv)

/-- `similaritySearch(query, k)`: embed the query, rank all stored vectors,
then `slice(0, k)` and project the documents. -/
def CustomVectorStore.similaritySearch (s : CustomVectorStore)
    (query : String) (k : Int) : List (Option Document) :=
  (jsSlice k (rankedPairs s (getEmbeddings s.extractor query))).map Prod.snd

/-- `formatDocuments(rawData)`: each record becomes a document whose
`pageContent` is the template literal `Title: ${title}\nContent: ${content}`. -/
def formatDocuments (rawData : List RawItem) : List Document :=
  rawData.map (fun item =>
    { pageContent := "Title: " ++ item.title ++ "\n" ++ "Content: " ++ item.content
      metadata := { id := item.id, title := item.title } })

/-- `createVectorStore(docs, extractor)`: embed every document's text
(`Promise.all` preserves order), attach the extractor, and bulk-load the
parallel arrays with `addVectors`. -/
def createVectorStore (docs : List Document) (extractor : String → List ℚ) :
    CustomVectorStore :=
  CustomVectorStore.addVectors
    { vectors := [], documents := [], extractor := extractor }
    (docs.map (fun doc => getEmbeddings extractor doc.pageContent)) docs

/-- `searchDocuments(vectorStore, query)`: the query pipeline always requests
`k = 3`. -/
def searchDocuments (s : CustomVectorStore) (query : String) : List (Option Document) :=
  s.similaritySearch query 3

/-- Concrete document used by the witnesses. -/
def docA : Document :=
  { pageContent := "Title: A\n" ++ "Content: cats", metadata := { id := 1, title := "A" } }

/-- Concrete document used by the witnesses. -/
def docB : Document :=
  { pageContent := "Title: B\n" ++ "Content: rockets", metadata := { id := 2, title := "B" } }

/-- A concrete two-document store used by the witnesses: the embedder sends
every query to `[1, 0]`. -/
def sampleStore : CustomVectorStore :=
  { vectors := [[1, 0], [0, 1]]
    documents := [docA, docB]
    extractor := fun _ => [1, 0] }

/-- Properness: an element of `Sim` that is an actual number with a positive
squared-magnitude product. -/
def ProperSim (p : Sim × Option Document) : Prop :=
  ∃ d c, p.1 = some (d, c) ∧ 0 < c

/-! ## Basic facts about the numeric primitives -/

theorem sumSq_foldl_nonneg (l : List ℚ) :
    ∀ c : ℚ, 0 ≤ c → 0 ≤ l.foldl (fun s v => s + v * v) c := by
  induction l with
  | nil => intro c hc; simpa using hc
  | cons x xs ih =>
    intro c hc
    exact ih _ (by show (0:ℚ) ≤ c + x * x; nlinarith [mul_self_nonneg x])

theorem sumSq_nonneg (l : List ℚ) : 0 ≤ sumSq l :=
  sumSq_foldl_nonneg l 0 le_rfl

theorem jsDot_eq_some : ∀ a b : List ℚ, a.length ≤ b.length → ∃ d, jsDot a b = some d := by
  intro a
  induction a with
  | nil => intro b _; exact ⟨0, rfl⟩
  | cons x xs ih =>
    intro b hb
    cases b with
    | nil => simp at hb
    | cons y ys =>
      obtain ⟨d, hd⟩ := ih ys (by simpa using hb)
      exact ⟨x * y + d, by simp [jsDot, hd]⟩

theorem jsDot_none_of_lt : ∀ a b : List ℚ, b.length < a.length → jsDot a b = none := by
  intro a
  induction a with
  | nil => intro b hb; simp at hb
  | cons x xs ih =>
    intro b hb
    cases b with
    | nil => rfl
    | cons y ys => simp [jsDot, ih ys (by simpa using hb)]

theorem jsDot_comm : ∀ a b : List ℚ, a.length = b.length → jsDot a b = jsDot b a := by
  intro a
  induction a with
  | nil =>
    intro b hb
    cases b with
    | nil => rfl
    | cons y ys => simp at hb
  | cons x xs ih =>
    intro b hb
    cases b with
    | nil => simp at hb
    | cons y ys => simp [jsDot, ih ys (by simpa using hb), mul_comm x y]

/-! ## The stable insertion sort -/

theorem mem_insertRanked {α : Type*} (ge : α → α → Bool) (x a : α) :
    ∀ l : List α, a ∈ insertRanked ge x l ↔ a = x ∨ a ∈ l := by
  intro l
  induction l with
  | nil => simp [insertRanked]
  | cons y ys ih =>
    by_cases h : ge x y
    · simp [insertRanked, h]
    · simp [insertRanked, h, ih]
      tauto

theorem length_insertRanked {α : Type*} (ge : α → α → Bool) (x : α) :
    ∀ l : List α, (insertRanked ge x l).length = l.length + 1 := by
  intro l
  induction l with
  | nil => rfl
  | cons y ys ih => by_cases h : ge x y <;> simp [insertRanked, h, ih]

theorem length_sortRanked {α : Type*} (ge : α → α → Bool) :
    ∀ l : List α, (sortRanked ge l).length = l.length := by
  intro l
  induction l with
  | nil => rfl
  | cons x xs ih => simp [sortRanked, length_insertRanked, ih]

theorem mem_sortRanked {α : Type*} (ge : α → α → Bool) (a : α) :
    ∀ l : List α, a ∈ sortRanked ge l ↔ a ∈ l := by
  intro l
  induction l with
  | nil => simp [sortRanked]
  | cons x xs ih => simp [sortRanked, mem_insertRanked, ih]

theorem pairwise_insertRanked {α : Type*} (ge : α → α → Bool) (P : α → Prop)
    (total : ∀ x y, P x → P y → (ge x y = true ∨ ge y x = true))
    (trans : ∀ x y z, P x → P y → P z → ge x y = true → ge y z = true → ge x z = true)
    (x : α) (hx : P x) :
    ∀ l : List α, (∀ a ∈ l, P a) → l.Pairwise (fun a b => ge a b = true) →
      (insertRanked ge x l).Pairwise (fun a b => ge a b = true) := by
  intro l
  induction l with
  | nil => intro _ _; simp [insertRanked]
  | cons y ys ih =>
    intro hP hsorted
    rw [List.pairwise_cons] at hsorted
    obtain ⟨hy, hys⟩ := hsorted
    by_cases h : ge x y
    · simp only [insertRanked]
      rw [if_pos h, List.pairwise_cons]
      refine ⟨?_, List.pairwise_cons.mpr ⟨hy, hys⟩⟩
      intro b hb
      rcases List.mem_cons.mp hb with rfl | hb'
      · exact h
      · exact trans x y b hx (hP y (by simp)) (hP b (by simp [hb'])) h (hy b hb')
    · simp only [insertRanked]
      rw [if_neg h, List.pairwise_cons]
      refine ⟨?_, ih (fun a ha => hP a (by simp [ha])) hys⟩
      intro b hb
      rcases (mem_insertRanked ge x b ys).mp hb with hbx | hb'
      · rw [hbx]
        rcases total x y hx (hP y (by simp)) with ht | ht
        · exact absurd ht h
        · exact ht
      · exact hy b hb'

theorem pairwise_sortRanked {α : Type*} (ge : α → α → Bool) (P : α → Prop)
    (total : ∀ x y, P x → P y → (ge x y = true ∨ ge y x = true))
    (trans : ∀ x y z, P x → P y → P z → ge x y = true → ge y z = true → ge x z = true) :
    ∀ l : List α, (∀ a ∈ l, P a) →
      (sortRanked ge l).Pairwise (fun a b => ge a b = true) := by
  intro l
  induction l with
  | nil => intro _; simp [sortRanked]
  | cons x xs ih =>
    intro hP
    exact pairwise_insertRanked ge P total trans x (hP x (by simp)) (sortRanked ge xs)
      (fun a ha => hP a (by simp [(mem_sortRanked ge a xs).mp ha]))
      (ih (fun a ha => hP a (by simp [ha])))

theorem pairwise_stable_insertRanked {β : Type*} (ge : β → β → Bool) (x : ℕ × β) :
    ∀ L : List (ℕ × β), (∀ y ∈ L, x.1 < y.1) →
      L.Pairwise (fun a b => (ge a.2 b.2 = true ∧ ge b.2 a.2 = true) → a.1 < b.1) →
      (insertRanked (fun a b => ge a.2 b.2) x L).Pairwise
        (fun a b => (ge a.2 b.2 = true ∧ ge b.2 a.2 = true) → a.1 < b.1) := by
  intro L
  induction L with
  | nil => intro _ _; simp [insertRanked]
  | cons y ys ih =>
    intro hidx hL
    rw [List.pairwise_cons] at hL
    obtain ⟨hy, hys⟩ := hL
    by_cases h : ge x.2 y.2
    · simp only [insertRanked]
      rw [if_pos h, List.pairwise_cons]
      exact ⟨fun w hw _ => hidx w hw, List.pairwise_cons.mpr ⟨hy, hys⟩⟩
    · simp only [insertRanked]
      rw [if_neg h, List.pairwise_cons]
      refine ⟨?_, ih (fun w hw => hidx w (by simp [hw])) hys⟩
      intro w hw
      rcases (mem_insertRanked _ x w ys).mp hw with hwx | hw'
      · intro ht
        rw [hwx] at ht
        exact absurd ht.2 h
      · exact hy w hw'

theorem pairwise_stable_sortRanked {β : Type*} (ge : β → β → Bool) :
    ∀ L : List (ℕ × β), L.Pairwise (fun a b => a.1 < b.1) →
      (sortRanked (fun a b => ge a.2 b.2) L).Pairwise
        (fun a b => (ge a.2 b.2 = true ∧ ge b.2 a.2 = true) → a.1 < b.1) := by
  intro L
  induction L with
  | nil => intro _; simp [sortRanked]
  | cons x xs ih =>
    intro hP
    rw [List.pairwise_cons] at hP
    exact pairwise_stable_insertRanked ge x _
      (fun y hy => hP.1 y ((mem_sortRanked _ y xs).mp hy)) (ih hP.2)

theorem map_snd_insertRanked {γ β : Type*} (ge : β → β → Bool) (x : γ × β) :
    ∀ L : List (γ × β),
      (insertRanked (fun a b => ge a.2 b.2) x L).map Prod.snd
        = insertRanked ge x.2 (L.map Prod.snd) := by
  intro L
  induction L with
  | nil => rfl
  | cons y ys ih => by_cases h : ge x.2 y.2 <;> simp [insertRanked, h, ih]

theorem map_snd_sortRanked {γ β : Type*} (ge : β → β → Bool) :
    ∀ L : List (γ × β),
      (sortRanked (fun a b => ge a.2 b.2) L).map Prod.snd
        = sortRanked ge (L.map Prod.snd) := by
  intro L
  induction L with
  | nil => rfl
  | cons x xs ih => simp [sortRanked, map_snd_insertRanked, ih]

/-! ## Index tags: `List.enum` carries strictly increasing first components -/

theorem fst_le_of_mem_enumFrom {α : Type*} :
    ∀ (n : ℕ) (l : List α) (p : ℕ × α), p ∈ List.enumFrom n l → n ≤ p.1 := by
  intro n l
  induction l generalizing n with
  | nil => intro p hp; simp at hp
  | cons x xs ih =>
    intro p hp
    rw [List.enumFrom_cons] at hp
    rcases List.mem_cons.mp hp with hpx | hp'
    · rw [hpx]
    · exact le_trans (Nat.le_succ n) (ih (n + 1) p hp')

theorem snd_mem_of_mem_enumFrom {α : Type*} :
    ∀ (n : ℕ) (l : List α) (p : ℕ × α), p ∈ List.enumFrom n l → p.2 ∈ l := by
  intro n l
  induction l generalizing n with
  | nil => intro p hp; simp at hp
  | cons x xs ih =>
    intro p hp
    rw [List.enumFrom_cons] at hp
    rcases List.mem_cons.mp hp with hpx | hp'
    · rw [hpx]; simp
    · simp [ih (n + 1) p hp']

theorem pairwise_fst_lt_enumFrom {α : Type*} :
    ∀ (n : ℕ) (l : List α), (List.enumFrom n l).Pairwise (fun a b => a.1 < b.1) := by
  intro n l
  induction l generalizing n with
  | nil => simp
  | cons x xs ih =>
    rw [List.enumFrom_cons, List.pairwise_cons]
    exact ⟨fun p hp => lt_of_lt_of_le (Nat.lt_succ_self n) (fst_le_of_mem_enumFrom (n + 1) xs p hp),
      ih (n + 1)⟩

/-! ## Certification of `simGe` against the real cosine-similarity order -/

theorem simGe_iff (d₁ s₁ d₂ s₂ : ℚ) (h₁ : 0 < s₁) (h₂ : 0 < s₂) :
    simGe (some (d₁, s₁)) (some (d₂, s₂)) = true ↔
      (d₂ : ℝ) / Real.sqrt (s₂ : ℝ) ≤ (d₁ : ℝ) / Real.sqrt (s₁ : ℝ) := by
  have hr₁ : (0 : ℝ) < (s₁ : ℝ) := by exact_mod_cast h₁
  have hr₂ : (0 : ℝ) < (s₂ : ℝ) := by exact_mod_cast h₂
  have hA : (0 : ℝ) < Real.sqrt (s₁ : ℝ) := Real.sqrt_pos.mpr hr₁
  have hB : (0 : ℝ) < Real.sqrt (s₂ : ℝ) := Real.sqrt_pos.mpr hr₂
  have hAA : Real.sqrt (s₁ : ℝ) * Real.sqrt (s₁ : ℝ) = (s₁ : ℝ) :=
    Real.mul_self_sqrt hr₁.le
  have hBB : Real.sqrt (s₂ : ℝ) * Real.sqrt (s₂ : ℝ) = (s₂ : ℝ) :=
    Real.mul_self_sqrt hr₂.le
  rw [div_le_div_iff₀ hB hA]
  show (if d₂ < 0 then
          (if 0 ≤ d₁ then true else decide (d₁ * d₁ * s₂ ≤ d₂ * d₂ * s₁))
        else
          (if d₁ < 0 then false else decide (d₂ * d₂ * s₁ ≤ d₁ * d₁ * s₂))) = true ↔ _
  split_ifs with hd₂ hd₁ hd₁'
  · have hc₂ : (d₂ : ℝ) < 0 := by exact_mod_cast hd₂
    have hc₁ : (0 : ℝ) ≤ (d₁ : ℝ) := by exact_mod_cast hd₁
    simp only [true_iff]
    nlinarith
  · have hc₂ : (d₂ : ℝ) < 0 := by exact_mod_cast hd₂
    have hc₁ : (d₁ : ℝ) < 0 := by exact_mod_cast (not_le.mp hd₁)
    have hX : (0 : ℝ) ≤ -((d₁ : ℝ) * Real.sqrt (s₂ : ℝ)) := by
      nlinarith [mul_pos hB (neg_pos.mpr hc₁)]
    have hY : (0 : ℝ) ≤ -((d₂ : ℝ) * Real.sqrt (s₁ : ℝ)) := by
      nlinarith [mul_pos hA (neg_pos.mpr hc₂)]
    have e₁ : -((d₁ : ℝ) * Real.sqrt (s₂ : ℝ)) * -((d₁ : ℝ) * Real.sqrt (s₂ : ℝ))
        = (d₁ : ℝ) * d₁ * (s₂ : ℝ) := by
      rw [neg_mul_neg, mul_mul_mul_comm, hBB]
    have e₂ : -((d₂ : ℝ) * Real.sqrt (s₁ : ℝ)) * -((d₂ : ℝ) * Real.sqrt (s₁ : ℝ))
        = (d₂ : ℝ) * d₂ * (s₁ : ℝ) := by
      rw [neg_mul_neg, mul_mul_mul_comm, hAA]
    rw [decide_eq_true_eq]
    constructor
    · intro h
      have h2 : -((d₁ : ℝ) * Real.sqrt (s₂ : ℝ)) ≤ -((d₂ : ℝ) * Real.sqrt (s₁ : ℝ)) := by
        refine (mul_self_le_mul_self_iff hX hY).mpr ?_
        rw [e₁, e₂]
        exact_mod_cast h
      linarith
    · intro h
      have h2 := (mul_self_le_mul_self_iff hX hY).mp (by linarith)
      rw [e₁, e₂] at h2
      exact_mod_cast h2
  · have hc₂ : (0 : ℝ) ≤ (d₂ : ℝ) := by exact_mod_cast not_lt.mp hd₂
    have hc₁ : (d₁ : ℝ) < 0 := by exact_mod_cast hd₁'
    simp only [false_iff, not_le]
    nlinarith
  · have hc₂ : (0 : ℝ) ≤ (d₂ : ℝ) := by exact_mod_cast not_lt.mp hd₂
    have hc₁ : (0 : ℝ) ≤ (d₁ : ℝ) := by exact_mod_cast not_lt.mp hd₁'
    have hX : (0 : ℝ) ≤ (d₂ : ℝ) * Real.sqrt (s₁ : ℝ) := mul_nonneg hc₂ hA.le
    have hY : (0 : ℝ) ≤ (d₁ : ℝ) * Real.sqrt (s₂ : ℝ) := mul_nonneg hc₁ hB.le
    have e₂ : (d₂ : ℝ) * Real.sqrt (s₁ : ℝ) * ((d₂ : ℝ) * Real.sqrt (s₁ : ℝ))
        = (d₂ : ℝ) * d₂ * (s₁ : ℝ) := by
      rw [mul_mul_mul_comm, hAA]
    have e₁ : (d₁ : ℝ) * Real.sqrt (s₂ : ℝ) * ((d₁ : ℝ) * Real.sqrt (s₂ : ℝ))
        = (d₁ : ℝ) * d₁ * (s₂ : ℝ) := by
      rw [mul_mul_mul_comm, hBB]
    rw [decide_eq_true_eq]
    constructor
    · intro h
      refine (mul_self_le_mul_self_iff hX hY).mpr ?_
      rw [e₂, e₁]
      exact_mod_cast h
    · intro h
      have h2 := (mul_self_le_mul_self_iff hX hY).mp h
      rw [e₂, e₁] at h2
      exact_mod_cast h2


theorem simGe_total_proper (x y : Sim × Option Document)
    (hx : ProperSim x) (hy : ProperSim y) :
    (fun a b : Sim × Option Document => simGe a.1 b.1) x y = true ∨
      (fun a b : Sim × Option Document => simGe a.1 b.1) y x = true := by
  obtain ⟨dx, cx, hxe, hxp⟩ := hx
  obtain ⟨dy, cy, hye, hyp⟩ := hy
  simp only [hxe, hye]
  rcases le_total ((dy : ℝ) / Real.sqrt (cy : ℝ)) ((dx : ℝ) / Real.sqrt (cx : ℝ)) with h | h
  · exact Or.inl ((simGe_iff dx cx dy cy hxp hyp).mpr h)
  · exact Or.inr ((simGe_iff dy cy dx cx hyp hxp).mpr h)

theorem simGe_trans_proper (x y z : Sim × Option Document)
    (hx : ProperSim x) (hy : ProperSim y) (hz : ProperSim z)
    (hxy : (fun a b : Sim × Option Document => simGe a.1 b.1) x y = true)
    (hyz : (fun a b : Sim × Option Document => simGe a.1 b.1) y z = true) :
    (fun a b : Sim × Option Document => simGe a.1 b.1) x z = true := by
  obtain ⟨dx, cx, hxe, hxp⟩ := hx
  obtain ⟨dy, cy, hye, hyp⟩ := hy
  obtain ⟨dz, cz, hze, hzp⟩ := hz
  simp only [hxe, hye, hze] at hxy hyz ⊢
  exact (simGe_iff dx cx dz cz hxp hzp).mpr
    (le_trans ((simGe_iff dy cy dz cz hyp hzp).mp hyz)
      ((simGe_iff dx cx dy cy hxp hyp).mp hxy))

/-! ## Properness and lengths of the similarity list -/

theorem cosineSimilarity_proper (qv v : List ℚ) (hlen : v.length = qv.length)
    (hq : sumSq qv ≠ 0) (hv : sumSq v ≠ 0) :
    ∃ d, cosineSimilarity qv v = some (d, sumSq qv * sumSq v)
      ∧ 0 < sumSq qv * sumSq v := by
  obtain ⟨d, hd⟩ := jsDot_eq_some qv v (le_of_eq hlen.symm)
  have hne : sumSq qv * sumSq v ≠ 0 := mul_ne_zero hq hv
  have hpos : 0 < sumSq qv * sumSq v :=
    lt_of_le_of_ne (mul_nonneg (sumSq_nonneg qv) (sumSq_nonneg v)) (Ne.symm hne)
  exact ⟨d, by simp [cosineSimilarity, hd, hne], hpos⟩

theorem simPairs_proper (s : CustomVectorStore) (qv : List ℚ)
    (hq : sumSq qv ≠ 0)
    (hv : ∀ v ∈ s.vectors, v.length = qv.length ∧ sumSq v ≠ 0) :
    ∀ p ∈ simPairs s qv, ProperSim p := by
  intro p hp
  simp only [simPairs, List.mem_map] at hp
  obtain ⟨q, hq_mem, rfl⟩ := hp
  have hv' : q.2 ∈ s.vectors := snd_mem_of_mem_enumFrom 0 s.vectors q hq_mem
  obtain ⟨hlen, hsq⟩ := hv q.2 hv'
  obtain ⟨d, hd, hpos⟩ := cosineSimilarity_proper qv q.2 hlen hq hsq
  exact ⟨d, sumSq qv * sumSq q.2, hd, hpos⟩

theorem length_simPairs (s : CustomVectorStore) (qv : List ℚ) :
    (simPairs s qv).length = s.vectors.length := by
  simp [simPairs]

theorem length_rankedPairs (s : CustomVectorStore) (qv : List ℚ) :
    (rankedPairs s qv).length = s.vectors.length := by
  rw [rankedPairs, length_sortRanked, length_simPairs]

theorem similaritySearch_length (s : CustomVectorStore) (query : String) (k : Int) :
    (s.similaritySearch query k).length =
      (if k < 0 then (s.vectors.length : Int) + k
       else min k (s.vectors.length : Int)).toNat := by
  rw [CustomVectorStore.similaritySearch, List.length_map, jsSlice, List.length_take,
    length_rankedPairs]
  rcases lt_or_le k 0 with hk | hk
  · rw [if_pos hk]
    omega
  · rw [if_neg (not_lt.mpr hk)]
    omega

theorem jsSlice_sublist (k : Int) (l : List α) : (jsSlice k l).Sublist l :=
  List.take_sublist _ _

/-! ## Claims -/

/-- Claim C1 (amended): the length of `similaritySearch` is `min k n` for
`k ≥ 0` (so `0` for an empty corpus or `k = 0`, and the whole ranked corpus
for `k ≥ n`), but for `k < 0` the JavaScript `slice(0, k)` semantics yield
`max (n + k) 0` elements, not an empty sequence. -/
theorem c1_search_length (s : CustomVectorStore) (query : String) (k : Int) :
    (s.similaritySearch query k).length =
      (if k < 0 then (s.vectors.length : Int) + k
       else min k (s.vectors.length : Int)).toNat
    ∧ (k = 0 → s.similaritySearch query k = [])
    ∧ (s.vectors = [] → s.similaritySearch query k = [])
    ∧ ((s.vectors.length : Int) ≤ k →
        s.similaritySearch query k
          = (rankedPairs s (getEmbeddings s.extractor query)).map Prod.snd) := by
  refine ⟨similaritySearch_length s query k, ?_, ?_, ?_⟩
  · intro hk
    subst hk
    apply List.length_eq_zero.mp
    rw [similaritySearch_length, if_neg (by omega : ¬ (0 : Int) < 0)]
    omega
  · intro hvec
    apply List.length_eq_zero.mp
    rw [similaritySearch_length, hvec]
    simp only [List.length_nil, Nat.cast_zero]
    rcases lt_or_le k 0 with h0 | h0
    · rw [if_pos h0]
      omega
    · rw [if_neg (not_lt.mpr h0)]
      omega
  · intro hk
    simp only [CustomVectorStore.similaritySearch, jsSlice]
    rw [List.take_of_length_le]
    rw [length_rankedPairs]
    rw [if_neg (by omega : ¬ k < 0)]
    omega

/-- Claim C1, counterexample to the frozen statement: on a two-document store,
`similaritySearch` with `k = -1` returns one document, not the empty sequence
the claim requires for `k ≤ 0`. -/
theorem c1_counterexample : (sampleStore.similaritySearch "q" (-1)).length = 1 := by
  with_unfolding_all decide

/-- Claim C1, witness instantiating the amended theorem. -/
theorem c1_search_length_witness :
    sampleStore.similaritySearch "q" 0 = []
    ∧ (sampleStore.similaritySearch "q" 5).length = 2 := by
  constructor
  · exact (c1_search_length sampleStore "q" 0).2.1 rfl
  · rw [(c1_search_length sampleStore "q" 5).1]
    decide

/-- Claim C2 (amended): `addVectors` performs no validation whatsoever: it
unconditionally replaces both parallel arrays with the given sequences, even
when their lengths differ, leaving a misaligned store and raising no error. -/
theorem c2_addVectors_no_validation (s : CustomVectorStore)
    (vectors : List (List ℚ)) (documents : List Document) :
    (s.addVectors vectors documents).vectors = vectors
    ∧ (s.addVectors vectors documents).documents = documents :=
  ⟨rfl, rfl⟩

/-- Claim C2, counterexample to the frozen statement: loading 3 vectors with
2 documents succeeds and leaves the store misaligned (3 vectors against
2 documents), instead of failing with an `InvariantError`. -/
theorem c2_counterexample :
    (sampleStore.addVectors [[1], [1], [1]] [docA, docB]).vectors.length = 3
    ∧ (sampleStore.addVectors [[1], [1], [1]] [docA, docB]).documents.length = 2 :=
  ⟨rfl, rfl⟩

/-- Claim C4 (amended): `cosineSimilarity` performs no length validation.
When `a` is longer than `b` the out-of-range indexing poisons the dot product
and the result is `NaN`; when `a` is shorter the computation silently
truncates and yields a numeric result (see the counterexample). -/
theorem c4_no_length_validation (a b : List ℚ) (h : b.length < a.length) :
    cosineSimilarity a b = none := by
  simp [cosineSimilarity, jsDot_none_of_lt a b h]

/-- Claim C4, counterexample to the frozen statement: with vectors of unequal
lengths `[1]` and `[1, 1]`, `cosineSimilarity` computes the numeric result
`1/√2` (represented as `some (1, 2)`) instead of failing with a
`DimensionMismatchError`. -/
theorem c4_counterexample : cosineSimilarity [1] [1, 1] = some (1, 2) := by
  with_unfolding_all decide

/-- Claim C4, witness instantiating the amended theorem. -/
theorem c4_no_length_validation_witness :
    [1].length < [1, 2].length ∧ cosineSimilarity [1, 2] [1] = none :=
  ⟨by decide, c4_no_length_validation [1, 2] [1] (by decide)⟩

/-- Claim C5 (amended): for equal-length vectors, when either vector has zero
magnitude `cosineSimilarity` evaluates `0/0` and returns `NaN` (`none`), not
the similarity `0` the claim requires. -/
theorem c5_zero_magnitude_nan (a b : List ℚ) (_hlen : a.length = b.length)
    (h0 : sumSq a = 0 ∨ sumSq b = 0) : cosineSimilarity a b = none := by
  have hz : sumSq a * sumSq b = 0 := by
    rcases h0 with h | h <;> simp [h]
  cases hjd : jsDot a b with
  | none => simp [cosineSimilarity, hjd]
  | some d => simp [cosineSimilarity, hjd, hz]

/-- Claim C5, counterexample to the frozen statement: the zero vector against
`[1]` yields `NaN` (`none`), not `0`. -/
theorem c5_counterexample : cosineSimilarity [0] [1] = none := by
  with_unfolding_all decide

/-- Claim C5, witness instantiating the amended theorem. -/
theorem c5_zero_magnitude_nan_witness :
    [0, 0].length = [1, 2].length
    ∧ (sumSq [0, 0] = 0 ∨ sumSq [1, 2] = 0)
    ∧ cosineSimilarity [0, 0] [1, 2] = none :=
  ⟨by decide, Or.inl (by with_unfolding_all decide),
    c5_zero_magnitude_nan [0, 0] [1, 2] (by decide)
      (Or.inl (by with_unfolding_all decide))⟩

/-- Claim C6: `formatDocuments` maps each raw record to a document whose text
is exactly `"Title: " + title + "\n" + "Content: " + content` (with the
record's id and title as metadata), preserves length, and maps the empty
corpus to the empty list without error. -/
theorem c6_formatDocuments (rawData : List RawItem) :
    (formatDocuments rawData).length = rawData.length
    ∧ formatDocuments [] = []
    ∧ ∀ (i : ℕ) (item : RawItem), rawData[i]? = some item →
        (formatDocuments rawData)[i]? =
          some { pageContent := "Title: " ++ item.title ++ "\n" ++ "Content: " ++ item.content
                 metadata := { id := item.id, title := item.title } } := by
  refine ⟨by simp [formatDocuments], rfl, ?_⟩
  intro i item hi
  simp [formatDocuments, List.getElem?_map, hi]

/-- Claim C6, witness instantiating the theorem on a one-record corpus. -/
theorem c6_formatDocuments_witness :
    (formatDocuments [⟨7, "T", "C"⟩])[0]?
      = some { pageContent := "Title: T\n" ++ "Content: C"
               metadata := { id := 7, title := "T" } } := by
  have h := (c6_formatDocuments [⟨7, "T", "C"⟩]).2.2 0 ⟨7, "T", "C"⟩ rfl
  exact h.trans (by decide)

/-- Claim C7: `createVectorStore` pairs the embedding of document `i` with
document `i`: the two arrays have equal length and the `i`-th stored vector is
the embedder's output on the `i`-th document's text, in the original order. -/
theorem c7_parallel_pairing (docs : List Document) (extractor : String → List ℚ) :
    (createVectorStore docs extractor).vectors.length
        = (createVectorStore docs extractor).documents.length
    ∧ ∀ i : ℕ, (createVectorStore docs extractor).vectors[i]?
        = ((createVectorStore docs extractor).documents[i]?).map
            (fun doc => getEmbeddings extractor doc.pageContent) := by
  constructor
  · simp [createVectorStore, CustomVectorStore.addVectors]
  · intro i
    simp [createVectorStore, CustomVectorStore.addVectors, List.getElem?_map]

/-- Claim C8: `similaritySearch` is deterministic: it is a function of the
store's observable contents (vectors, documents, and the embedding the
extractor assigns to the query) alone, so two calls with the same query on an
unchanged store return identical ordered results. -/
theorem c8_search_deterministic (s₁ s₂ : CustomVectorStore) (query : String) (k : Int)
    (hvec : s₁.vectors = s₂.vectors) (hdoc : s₁.documents = s₂.documents)
    (hemb : s₁.extractor query = s₂.extractor query) :
    s₁.similaritySearch query k = s₂.similaritySearch query k := by
  simp only [CustomVectorStore.similaritySearch, rankedPairs, simPairs, getEmbeddings,
    hvec, hdoc, hemb]

/-- Claim C8, witness: two calls on the sample store agree. -/
theorem c8_search_deterministic_witness :
    sampleStore.similaritySearch "q2" 3 = sampleStore.similaritySearch "q2" 3 :=
  c8_search_deterministic sampleStore sampleStore "q2" 3 rfl rfl rfl

/-- Claim C9: `cosineSimilarity` is symmetric on equal-length vectors. -/
theorem c9_cosineSimilarity_symm (a b : List ℚ) (h : a.length = b.length) :
    cosineSimilarity a b = cosineSimilarity b a := by
  unfold cosineSimilarity
  rw [jsDot_comm a b h, mul_comm (sumSq a) (sumSq b)]

/-- Claim C9, witness at a concrete pair. -/
theorem c9_cosineSimilarity_symm_witness :
    [1, 2].length = [3, 4].length
    ∧ cosineSimilarity [1, 2] [3, 4] = cosineSimilarity [3, 4] [1, 2] :=
  ⟨rfl, c9_cosineSimilarity_symm [1, 2] [3, 4] rfl⟩

/-- Claim C10: the query pipeline always requests exactly `k = 3`; on a store
holding `n` documents the retrieved sequence has length `min 3 n`, and
`searchDocuments` accepts no caller-supplied `k`. -/
theorem c10_query_pipeline_k3 (s : CustomVectorStore) (query : String)
    (h : s.documents.length = s.vectors.length) :
    (searchDocuments s query).length = min 3 s.documents.length := by
  rw [searchDocuments, similaritySearch_length, h,
    if_neg (by omega : ¬ (3 : Int) < 0)]
  omega

/-- Claim C10, witness on the sample store. -/
theorem c10_query_pipeline_k3_witness :
    (searchDocuments sampleStore "query").length = min 3 sampleStore.documents.length :=
  c10_query_pipeline_k3 sampleStore "query" rfl

/-- Claim C3: on a valid populated store (stored vectors of the query's
dimension and nonzero magnitude, nonzero query embedding), the search result
is the document projection of the ranked list; the ranked list (and hence the
returned sequence) is ordered by non-increasing real cosine similarity
`d / √s`; and the ranking is stable: tagging the pre-sort similarity list with
its insertion indices and sorting with the same comparator reproduces the
ranked list, with any two entries of equal similarity appearing in strictly
increasing insertion-index order. -/
theorem c3_search_sorted_stable (s : CustomVectorStore) (query : String) (k : Int)
    (hq : sumSq (getEmbeddings s.extractor query) ≠ 0)
    (hv : ∀ v ∈ s.vectors,
        v.length = (getEmbeddings s.extractor query).length ∧ sumSq v ≠ 0) :
    s.similaritySearch query k
        = (jsSlice k (rankedPairs s (getEmbeddings s.extractor query))).map Prod.snd
    ∧ (jsSlice k (rankedPairs s (getEmbeddings s.extractor query))).Pairwise
        (fun x y => ∀ dx cx dy cy : ℚ, x.1 = some (dx, cx) → y.1 = some (dy, cy) →
          (dy : ℝ) / Real.sqrt (cy : ℝ) ≤ (dx : ℝ) / Real.sqrt (cx : ℝ))
    ∧ rankedPairs s (getEmbeddings s.extractor query)
        = (sortRanked (fun a b => simGe a.2.1 b.2.1)
            ((simPairs s (getEmbeddings s.extractor query)).enum)).map Prod.snd
    ∧ (sortRanked (fun a b => simGe a.2.1 b.2.1)
          ((simPairs s (getEmbeddings s.extractor query)).enum)).Pairwise
        (fun a b => ∀ dx cx dy cy : ℚ, a.2.1 = some (dx, cx) → b.2.1 = some (dy, cy) →
          (dx : ℝ) / Real.sqrt (cx : ℝ) = (dy : ℝ) / Real.sqrt (cy : ℝ) → a.1 < b.1) := by
  have hproper := simPairs_proper s (getEmbeddings s.extractor query) hq hv
  have hsorted : (rankedPairs s (getEmbeddings s.extractor query)).Pairwise
      (fun a b : Sim × Option Document => simGe a.1 b.1 = true) :=
    pairwise_sortRanked (fun x y : Sim × Option Document => simGe x.1 y.1) ProperSim
      simGe_total_proper simGe_trans_proper
      (simPairs s (getEmbeddings s.extractor query)) hproper
  refine ⟨rfl, ?_, ?_, ?_⟩
  · have hsortedR : (rankedPairs s (getEmbeddings s.extractor query)).Pairwise
        (fun x y => ∀ dx cx dy cy : ℚ, x.1 = some (dx, cx) → y.1 = some (dy, cy) →
          (dy : ℝ) / Real.sqrt (cy : ℝ) ≤ (dx : ℝ) / Real.sqrt (cx : ℝ)) := by
      refine List.Pairwise.imp_of_mem ?_ hsorted
      intro a b ha hb hr
      have ha' := hproper a
        ((mem_sortRanked (fun x y : Sim × Option Document => simGe x.1 y.1) a _).mp ha)
      have hb' := hproper b
        ((mem_sortRanked (fun x y : Sim × Option Document => simGe x.1 y.1) b _).mp hb)
      obtain ⟨da, ca, hae, hap⟩ := ha'
      obtain ⟨db, cb, hbe, hbp⟩ := hb'
      intro dx cx dy cy hx hy
      have hax : da = dx ∧ ca = cx := by
        have := hae.symm.trans hx
        simpa using this
      have hby : db = dy ∧ cb = cy := by
        have := hbe.symm.trans hy
        simpa using this
      rw [hae, hbe] at hr
      have := (simGe_iff da ca db cb hap hbp).mp hr
      rw [hax.1, hax.2, hby.1, hby.2] at this
      exact this
    exact List.Pairwise.sublist (jsSlice_sublist k _) hsortedR
  · have h := map_snd_sortRanked (γ := ℕ)
      (fun x y : Sim × Option Document => simGe x.1 y.1)
      ((simPairs s (getEmbeddings s.extractor query)).enum)
    rw [List.enum_map_snd] at h
    exact h.symm
  · have hstable := pairwise_stable_sortRanked
      (fun x y : Sim × Option Document => simGe x.1 y.1)
      ((simPairs s (getEmbeddings s.extractor query)).enum)
      (pairwise_fst_lt_enumFrom 0 (simPairs s (getEmbeddings s.extractor query)))
    refine List.Pairwise.imp_of_mem ?_ hstable
    intro a b ha hb hr
    have ha' : a.2 ∈ simPairs s (getEmbeddings s.extractor query) :=
      snd_mem_of_mem_enumFrom 0 _ a
        ((mem_sortRanked (fun x y => simGe x.2.1 y.2.1) a _).mp ha)
    have hb' : b.2 ∈ simPairs s (getEmbeddings s.extractor query) :=
      snd_mem_of_mem_enumFrom 0 _ b
        ((mem_sortRanked (fun x y => simGe x.2.1 y.2.1) b _).mp hb)
    obtain ⟨da, ca, hae, hap⟩ := hproper a.2 ha'
    obtain ⟨db, cb, hbe, hbp⟩ := hproper b.2 hb'
    intro dx cx dy cy hx hy heq
    have hax : da = dx ∧ ca = cx := by
      have := hae.symm.trans hx
      simpa using this
    have hby : db = dy ∧ cb = cy := by
      have := hbe.symm.trans hy
      simpa using this
    apply hr
    constructor
    · show simGe a.2.1 b.2.1 = true
      rw [hae, hbe]
      refine (simGe_iff da ca db cb hap hbp).mpr ?_
      rw [hax.1, hax.2, hby.1, hby.2, heq]
    · show simGe b.2.1 a.2.1 = true
      rw [hae, hbe]
      refine (simGe_iff db cb da ca hbp hap).mpr ?_
      rw [hax.1, hax.2, hby.1, hby.2, heq]

/-- Claim C3, witness: hypotheses hold on the sample store and the theorem
applies there. -/
theorem c3_search_sorted_stable_witness :
    sumSq (getEmbeddings sampleStore.extractor "q") ≠ 0
    ∧ (∀ v ∈ sampleStore.vectors,
        v.length = (getEmbeddings sampleStore.extractor "q").length ∧ sumSq v ≠ 0)
    ∧ sampleStore.similaritySearch "q" 3
        = (jsSlice 3 (rankedPairs sampleStore
            (getEmbeddings sampleStore.extractor "q"))).map Prod.snd :=
  ⟨by with_unfolding_all decide, by with_unfolding_all decide,
    (c3_search_sorted_stable sampleStore "q" 3 (by with_unfolding_all decide)
      (by with_unfolding_all decide)).1⟩
